import Mathlib

/-!
Verification development for the TrustVault repository.

The repository contains a browser UI (src/src/components/TrustVaultInterface.tsx
and a second revision of the same component, src/unnamed/part_000) that issues
calls against a time-gated inheritance vault engine (an Algorand smart contract
reached through a generated TrustVaultClient). The UI-side validation and
request construction are embedded here directly from the TypeScript source;
the engine itself is not part of the repository source, so its operations are
modelled from the specification (each such definition is marked
"Modelled from the spec:").

Conventions: JavaScript BigInt values are modelled as Int, JavaScript Number
values as Rat (with NaN modelled explicitly), timestamps and intervals in
whole seconds as Int, the vault store as an association list keyed by the
owner identifier.
-/

deriving instance DecidableEq for Except

namespace TrustVault

/-- Interval lower bound, 3 months in seconds. Appears both in the spec
(contract-surface constant) and literally in the UI source
(TrustVaultInterface.tsx line 137). -/
def MIN_INTERVAL : Int := 7776000

/-- Interval upper bound, 1 year in seconds. Appears both in the spec
(contract-surface constant) and literally in the UI source
(TrustVaultInterface.tsx line 138). -/
def MAX_INTERVAL : Int := 31536000

/-- Modelled from the spec: the Vault record of the engine (data model of
spec section 3), which is not in src/. One record per owner. -/
structure Vault where
  owner : String
  heir : String
  lastHeartbeat : Int
  heartbeatInterval : Int
  balance : Int
  deriving DecidableEq

/-- Modelled from the spec: the engine state, which is not in src/ — the
Vault Store (keyed storage, at most one record per owner) together with the
Registry Counter totalVaults. -/
structure EngineState where
  vaults : List (String × Vault)
  totalVaults : Nat
  deriving DecidableEq

/-- Modelled from the spec: the typed failure taxonomy of spec section 7;
the engine raising these errors is not in src/. -/
inductive VaultError where
  | InvalidInterval
  | InvalidHeir
  | AlreadyExists
  | Unauthorized
  | InsufficientBalance
  | VaultNotFound
  | OwnerStillActive
  | TransferFailed
  deriving DecidableEq

/-- Modelled from the spec: lookup of an owner key in the Vault Store. -/
def findVault (s : EngineState) (o : String) : Option Vault :=
  (s.vaults.find? (fun p => p.1 == o)).map (fun p => p.2)

/-- Modelled from the spec: replace the record stored under key o, keeping
every other record and the counter untouched. -/
def setVault (s : EngineState) (o : String) (v : Vault) : EngineState :=
  { s with vaults := s.vaults.map (fun p => if p.1 == o then (p.1, v) else p) }

/-- Modelled from the spec: setupVault (spec section 4.1), not in src/.
Validates the interval bounds first (InvalidInterval), requires a
syntactically present heir (InvalidHeir); an owner that already holds a vault
is rejected with AlreadyExists. Creates the vault with balance 0 and
lastHeartbeat = now, keyed by the authenticated caller, and increments
totalVaults. The spec flags heir = owner as NOT validated. -/
def setupVault (s : EngineState) (caller heir : String) (interval now : Int) :
    Except VaultError EngineState :=
  if interval < MIN_INTERVAL ∨ interval > MAX_INTERVAL then .error .InvalidInterval
  else if heir.isEmpty then .error .InvalidHeir
  else
    match findVault s caller with
    | some _ => .error .AlreadyExists
    | none =>
        .ok { vaults := (caller, ⟨caller, heir, now, interval, 0⟩) :: s.vaults,
              totalVaults := s.totalVaults + 1 }

/-- Modelled from the spec: depositFunds (spec section 4.1), not in src/.
Authorization is checked against the stored owner, never a request field;
a non-positive bundled payment cannot complete (TransferFailed); on success
balance increases by amount and nothing else changes. -/
def depositFunds (s : EngineState) (caller target : String) (amount : Int) :
    Except VaultError EngineState :=
  match findVault s target with
  | none => .error .VaultNotFound
  | some v =>
      if caller ≠ v.owner then .error .Unauthorized
      else if amount ≤ 0 then .error .TransferFailed
      else .ok (setVault s target { v with balance := v.balance + amount })

/-- Modelled from the spec: withdrawFunds (spec section 4.1), not in src/.
Requires caller = stored owner; precondition 0 < amount ≤ balance, violated
precondition reported as InsufficientBalance (the only state-dependent
failure the spec lists for withdraw); on success balance decreases by amount. -/
def withdrawFunds (s : EngineState) (caller target : String) (amount : Int) :
    Except VaultError EngineState :=
  match findVault s target with
  | none => .error .VaultNotFound
  | some v =>
      if caller ≠ v.owner then .error .Unauthorized
      else if amount ≤ 0 ∨ v.balance < amount then .error .InsufficientBalance
      else .ok (setVault s target { v with balance := v.balance - amount })

/-- Modelled from the spec: updateHeir (spec section 4.1), not in src/.
Owner-only; requires a syntactically present heir; the spec flags
newHeir = owner as NOT validated. -/
def updateHeir (s : EngineState) (caller target newHeir : String) :
    Except VaultError EngineState :=
  match findVault s target with
  | none => .error .VaultNotFound
  | some v =>
      if caller ≠ v.owner then .error .Unauthorized
      else if newHeir.isEmpty then .error .InvalidHeir
      else .ok (setVault s target { v with heir := newHeir })

/-- Modelled from the spec: updateHeartbeatInterval (spec section 4.1), not
in src/. Owner-only; re-validates the same closed bounds; on success only
heartbeatInterval changes — lastHeartbeat is NOT reset. -/
def updateHeartbeatInterval (s : EngineState) (caller target : String)
    (newInterval : Int) : Except VaultError EngineState :=
  match findVault s target with
  | none => .error .VaultNotFound
  | some v =>
      if caller ≠ v.owner then .error .Unauthorized
      else if newInterval < MIN_INTERVAL ∨ newInterval > MAX_INTERVAL then
        .error .InvalidInterval
      else .ok (setVault s target { v with heartbeatInterval := newInterval })

/-- Modelled from the spec: heartbeat (spec section 4.1), not in src/.
Owner-only; sets lastHeartbeat to now, no other side effect. -/
def heartbeat (s : EngineState) (caller target : String) (now : Int) :
    Except VaultError EngineState :=
  match findVault s target with
  | none => .error .VaultNotFound
  | some v =>
      if caller ≠ v.owner then .error .Unauthorized
      else .ok (setVault s target { v with lastHeartbeat := now })

/-- Modelled from the spec: claimFunds (spec section 4.1), not in src/.
Requires the vault to exist (VaultNotFound), the authenticated caller to be
the stored heir (Unauthorized), and now - lastHeartbeat > heartbeatInterval
with strict inequality (otherwise OwnerStillActive). On success the whole
balance is transferred (returned), the record removed, totalVaults
decremented. -/
def claimFunds (s : EngineState) (caller ownerKey : String) (now : Int) :
    Except VaultError (EngineState × Int) :=
  match findVault s ownerKey with
  | none => .error .VaultNotFound
  | some v =>
      if caller ≠ v.heir then .error .Unauthorized
      else if now - v.lastHeartbeat ≤ v.heartbeatInterval then .error .OwnerStillActive
      else
        .ok ({ vaults := s.vaults.filter (fun p => p.1 != ownerKey),
               totalVaults := s.totalVaults - 1 }, v.balance)

/-- Modelled from the spec: getVaultInfo (spec section 4.1), not in src/.
A pure read returning the tuple (heir, lastHeartbeat, interval, balance); a
non-existent owner yields the typed failure VaultNotFound rather than a
zeroed record. -/
def getVaultInfo (s : EngineState) (o : String) :
    Except VaultError (String × Int × Int × Int) :=
  match findVault s o with
  | none => .error .VaultNotFound
  | some v => .ok (v.heir, v.lastHeartbeat, v.heartbeatInterval, v.balance)

/-- Modelled from the spec: getTotalVaults, not in src/ — pure read of the
Registry Counter. -/
def getTotalVaults (s : EngineState) : Nat := s.totalVaults

/-! ## UI-side embedding (from the TypeScript source under src/) -/

/-- A JavaScript Number as produced by Number(input): either NaN or a finite
value, the finite value modelled as a rational. -/
inductive JsNum where
  | nan
  | num (q : ℚ)
  deriving DecidableEq

/-- A user-entered amount field, abstracted: the empty string, a plain
decimal numeral with value q, or a string Number() cannot parse (NaN). -/
inductive AmountInput where
  | empty
  | numeral (q : ℚ)
  | nonNumeric
  deriving DecidableEq

/-- JavaScript Number() on the three input shapes: the empty string parses
to 0, a numeral to its value, anything else to NaN. -/
def jsNumber : AmountInput → JsNum
  | .empty => .num 0
  | .numeral q => .num q
  | .nonNumeric => .nan

/-- The JavaScript comparison x <= 0: false when x is NaN (every comparison
with NaN is false). -/
def jsLeZero : JsNum → Bool
  | .nan => false
  | .num q => decide (q ≤ 0)

/-- The amount guard shared by handleDepositFunds (TrustVaultInterface.tsx
lines 176-179) and handleWithdrawFunds (lines 253-256):
if (!amount || Number(amount) <= 0) return. The guard passes when the field
is a non-empty string (truthy) and Number(amount) <= 0 evaluates to false. -/
def uiAmountGuardPasses : AmountInput → Bool
  | .empty => false
  | .numeral q => !(jsLeZero (.num q))
  | .nonNumeric => !(jsLeZero .nan)

/-- JavaScript Math.round on an exact rational: Math.round(x) = ⌊x + 0.5⌋,
computed for q = num/den as the floor division (2·num + den) / (2·den) —
Int division here is Euclidean, which floors when the divisor is positive.
The lemma jsRound_eq_round below checks this against Mathlib round. -/
def jsRound (q : ℚ) : Int :=
  (2 * q.num + (q.den : Int)) / (2 * (q.den : Int))

/-- The conversion in handleWithdrawFunds (TrustVaultInterface.tsx line 263):
BigInt(Math.round(Number(x) * 1_000_000)); BigInt(NaN) throws, modelled as
none. -/
def jsRoundMicro : JsNum → Option Int
  | .nan => none
  | .num q => some (jsRound (q * 1000000))

/-- Modelled from the spec: the algokit helper algo(x) used by
handleDepositFunds (TrustVaultInterface.tsx line 189) is library code not
in src/: it converts an ALGO amount to microALGO (1 ALGO = 1,000,000
microALGO, rounded to a whole unit); a NaN amount cannot be turned into a
transaction (the conversion/payment construction throws), modelled as none. -/
def algoToMicro : JsNum → Option Int
  | .nan => none
  | .num q => some (jsRound (q * 1000000))

/-- handleDepositFunds of TrustVaultInterface.tsx (lines 169-245), reduced to
the submitted payment amount: none means no depositFunds call is issued
(guard rejection or a thrown conversion); some a means a call whose bundled
payment carries a microALGO. -/
def handleDepositFunds (i : AmountInput) : Option Int :=
  if uiAmountGuardPasses i then algoToMicro (jsNumber i) else none

/-- handleWithdrawFunds of TrustVaultInterface.tsx (lines 247-295), reduced
to the submitted amount argument: none means no withdrawFunds call is issued;
some a means a call with amount a microALGO
(BigInt(Math.round(Number(input) * 1_000_000))). -/
def handleWithdrawFunds (i : AmountInput) : Option Int :=
  if uiAmountGuardPasses i then jsRoundMicro (jsNumber i) else none

/-- JavaScript BigInt(input) applied directly to the raw string, as in the
part_000 revision: the empty string gives 0, a plain decimal numeral gives
its value when it is an integer and throws otherwise, a non-numeric string
throws. Throwing is modelled as none. -/
def jsBigIntOfInput : AmountInput → Option Int
  | .empty => some 0
  | .numeral q => if q.den = 1 then some q.num else none
  | .nonNumeric => none

/-- handleWithdrawFunds of src/unnamed/part_000 (lines 237-266), reduced to
the submitted amount argument: the same guard, then BigInt(withdrawAmount)
passed directly (the input is treated as microALGO). -/
def handleWithdrawFundsPart000 (i : AmountInput) : Option Int :=
  if uiAmountGuardPasses i then jsBigIntOfInput i else none

/-- The interval rejection test of handleSetupVault (TrustVaultInterface.tsx
line 140) and, with the same literals, of handleUpdateHeartbeatInterval
(line 343): interval < minInterval || interval > maxInterval. -/
def uiIntervalRejects (interval : Int) : Bool :=
  decide (interval < MIN_INTERVAL) || decide (interval > MAX_INTERVAL)

/-- The UI-side pre-check of handleSetupVault on the interval: the call is
only issued when the rejection test fails. -/
def uiIntervalAccepts (interval : Int) : Bool :=
  !(uiIntervalRejects interval)

/-- The interval rejection test of handleUpdateHeartbeatInterval
(TrustVaultInterface.tsx lines 339-348), textually identical to the setup
check, stated as acceptance. -/
def uiUpdateIntervalAccepts (interval : Int) : Bool :=
  !(decide (interval < MIN_INTERVAL) || decide (interval > MAX_INTERVAL))

/-- handleSetupVault of TrustVaultInterface.tsx (lines 125-167), reduced to
whether the setupVault call is issued. Inputs: the authenticated wallet
address (in scope but never compared against the heir field), the heir field,
and the interval field (none models the empty field; a non-empty field is
parsed by BigInt). The guard requires both fields non-empty, then checks the
interval bounds; no other validation happens before the call. -/
def handleSetupVault (activeAddress heirAddress : String)
    (intervalInput : Option Int) : Bool :=
  match intervalInput with
  | none => false
  | some interval =>
      !heirAddress.isEmpty && uiIntervalAccepts interval && !activeAddress.isEmpty

/-- handleClaimFunds of TrustVaultInterface.tsx (lines 393-423), reduced to
the request it submits: none when the vault-owner field is empty, otherwise
(sender, vaultOwner) where sender is the authenticated wallet address and
vaultOwner the typed-in target key. -/
def handleClaimFunds (activeAddress claimVaultOwner : String) :
    Option (String × String) :=
  if claimVaultOwner.isEmpty then none
  else some (activeAddress, claimVaultOwner)

/-! ## Query path: client transport and loadVaultInfo (from the source) -/

/-- The vault record as the UI state holds it (interface VaultInfo,
TrustVaultInterface.tsx lines 10-15). -/
structure VaultInfo where
  heir : String
  lastHeartbeat : Int
  heartbeatInterval : Int
  vaultBalance : Int
  deriving DecidableEq

/-- What a client.send.getVaultInfo call delivers to loadVaultInfo: either
the returned tuple or a thrown error carrying a message string. -/
inductive QueryOutcome where
  | success (heir : String) (lastHeartbeat interval balance : Int)
  | failure (msg : String)
  deriving DecidableEq

/-- Substring test modelling JavaScript String.prototype.includes, on the
character lists of the two strings. -/
def msgIncludes (msg pat : String) : Bool :=
  (List.range (msg.data.length + 1)).any
    (fun i => (msg.data.drop i).take pat.data.length == pat.data)

/-- Modelled from the spec: the generated client (not in src/) surfaces the
engine failure VaultNotFound as a thrown error whose message contains
"Vault does not exist" — the exact string loadVaultInfo tests for; a
successful read is delivered as the returned tuple. -/
def clientGetVaultInfo (s : EngineState) (o : String) : QueryOutcome :=
  match getVaultInfo s o with
  | .ok (h, lh, i, b) => .success h lh i b
  | .error _ => .failure "Vault does not exist"

/-- loadVaultInfo of TrustVaultInterface.tsx (lines 63-87): on a successful
return the four fields are stored; on an error whose message includes
"Vault does not exist" the vault info is set to none; on any other error the
previous value is kept (only logged). -/
def loadVaultInfo (prev : Option VaultInfo) (r : QueryOutcome) :
    Option VaultInfo :=
  match r with
  | .success h lh i b => some ⟨h, lh, i, b⟩
  | .failure msg =>
      if msgIncludes msg "Vault does not exist" then none else prev

/-! ## Helper lemmas -/

theorem jsRound_eq_round (q : ℚ) : jsRound q = round q := by
  have h1 : q + 1/2 = ((2 * q.num + (q.den : Int) : ℤ) : ℚ) / ((2 * q.den : ℕ) : ℚ) := by
    conv_lhs => rw [← Rat.num_div_den q]
    have hd : (q.den : ℚ) ≠ 0 := by
      exact_mod_cast q.den_nz
    field_simp
    ring
  rw [round_eq, h1, Rat.floor_intCast_div_natCast, jsRound]
  push_cast
  ring_nf

theorem findVault_setVault (s : EngineState) (o o₂ : String) (w : Vault) :
    findVault (setVault s o w) o₂ =
      if o₂ = o then (findVault s o).map (fun _ => w) else findVault s o₂ := by
  obtain ⟨l, t⟩ := s
  unfold findVault setVault
  simp only [List.find?_map]
  have hpred : ((fun p : String × Vault => p.1 == o₂) ∘
      fun p => if p.1 == o then (p.1, w) else p) = fun p => p.1 == o₂ := by
    funext p
    by_cases h : p.1 = o <;> simp [h]
  rw [hpred]
  rcases hf : l.find? (fun p => p.1 == o₂) with _ | q
  · by_cases ho : o₂ = o
    · subst ho; simp [hf]
    · simp [ho, hf]
  · have hq : q.1 = o₂ := by
      have := List.find?_some hf
      simpa [beq_iff_eq] using this
    by_cases ho : o₂ = o
    · subst ho; simp [hf, hq]
    · simp [hf, hq, ho]

theorem setVault_totalVaults (s : EngineState) (o : String) (v : Vault) :
    (setVault s o v).totalVaults = s.totalVaults := rfl

/-! ## Claim theorems -/

/-- Claim C1: for any interval I outside [7776000, 31536000], setupVault
fails with InvalidInterval regardless of state, caller, heir or clock, and
an in-bounds I (boundaries included) is never rejected for the interval
(never with InvalidInterval); the UI-side pre-check of handleSetupVault
accepts exactly the closed range MIN_INTERVAL ≤ I ≤ MAX_INTERVAL and only
issues the call for accepted intervals. -/
theorem C1_setupVault_interval_bounds :
    ∀ interval : Int,
      (uiIntervalAccepts interval = true ↔
        MIN_INTERVAL ≤ interval ∧ interval ≤ MAX_INTERVAL) ∧
      (∀ activeAddress heirAddress : String,
        handleSetupVault activeAddress heirAddress (some interval) = true →
          MIN_INTERVAL ≤ interval ∧ interval ≤ MAX_INTERVAL) ∧
      (∀ (s : EngineState) (caller heir : String) (now : Int),
        setupVault s caller heir interval now = .error .InvalidInterval ↔
          (interval < MIN_INTERVAL ∨ interval > MAX_INTERVAL)) := by
  intro interval
  have hui : uiIntervalAccepts interval = true ↔
      MIN_INTERVAL ≤ interval ∧ interval ≤ MAX_INTERVAL := by
    simp [uiIntervalAccepts, uiIntervalRejects]
  refine ⟨hui, ?_, ?_⟩
  · intro activeAddress heirAddress hcall
    unfold handleSetupVault at hcall
    simp only [Bool.and_eq_true] at hcall
    exact hui.mp hcall.1.2
  · intro s caller heir now
    unfold setupVault
    by_cases h : interval < MIN_INTERVAL ∨ interval > MAX_INTERVAL
    · simp [h]
    · rw [if_neg h]
      by_cases h2 : heir.isEmpty
      · simp [h2, h]
      · rw [if_neg (by simp [h2])]
        rcases hv : findVault s caller with _ | v <;> simp [h]

/-- Claim C2: claimFunds succeeds exactly when a vault exists for the target
owner key, the authenticated caller equals the stored heir, and
now - lastHeartbeat > heartbeatInterval with strict inequality; at the exact
boundary now - lastHeartbeat = heartbeatInterval the claim fails with
OwnerStillActive. -/
theorem C2_claimFunds_conditions :
    ∀ (s : EngineState) (caller o : String) (now : Int),
      ((∃ r, claimFunds s caller o now = .ok r) ↔
        ∃ v, findVault s o = some v ∧ caller = v.heir ∧
          v.heartbeatInterval < now - v.lastHeartbeat) ∧
      (∀ v, findVault s o = some v → caller = v.heir →
        now - v.lastHeartbeat = v.heartbeatInterval →
        claimFunds s caller o now = .error .OwnerStillActive) := by
  intro s caller o now
  constructor
  · unfold claimFunds
    rcases hv : findVault s o with _ | v
    · simp
    · by_cases hc : caller = v.heir
      · by_cases ht : now - v.lastHeartbeat ≤ v.heartbeatInterval <;>
          simp [hc, ht] <;> omega
      · simp [hc]
  · intro v hv hc ht
    unfold claimFunds
    rw [hv]
    simp [hc]
    omega

/-- Witness for C2 at a concrete vault: the claim succeeds one second past
the window and fails with OwnerStillActive exactly at the boundary. -/
theorem C2_claimFunds_conditions_witness :
    (∃ r, claimFunds ⟨[("O", ⟨"O", "H", 0, 7776000, 5⟩)], 1⟩ "H" "O" 7776001 = .ok r) ∧
    claimFunds ⟨[("O", ⟨"O", "H", 0, 7776000, 5⟩)], 1⟩ "H" "O" 7776000 =
      .error .OwnerStillActive :=
  ⟨(C2_claimFunds_conditions ⟨[("O", ⟨"O", "H", 0, 7776000, 5⟩)], 1⟩ "H" "O" 7776001).1.mpr
      ⟨⟨"O", "H", 0, 7776000, 5⟩, by decide, rfl, by decide⟩,
   (C2_claimFunds_conditions ⟨[("O", ⟨"O", "H", 0, 7776000, 5⟩)], 1⟩ "H" "O" 7776000).2
      ⟨"O", "H", 0, 7776000, 5⟩ (by decide) rfl (by decide)⟩

/-- Counterexample to C3 as stated: a setup request whose heir field equals
the authenticated owner passes the UI pre-check of handleSetupVault, and
setupVault creates the vault (with heir = owner) rather than rejecting it. -/
theorem C3_counterexample :
    handleSetupVault "OWNER" "OWNER" (some 7776000) = true ∧
    setupVault ⟨[], 0⟩ "OWNER" "OWNER" 7776000 0 =
      .ok ⟨[("OWNER", ⟨"OWNER", "OWNER", 0, 7776000, 0⟩)], 1⟩ := by
  constructor
  · decide
  · decide

/-- Claim C3 amended: setupVault and updateHeir require only a syntactically
present (non-empty) heir; an heir equal to the owner is accepted, both by the
UI pre-check (which never compares the heir field against the authenticated
address) and by the engine: setup with heir = owner creates a vault whose
heir equals its owner, and updateHeir accepts the owner as the new heir —
heir ≠ owner is not an enforced invariant. -/
theorem C3_heir_not_distinct :
    ∀ (owner : String) (interval : Int),
      (¬owner.isEmpty → MIN_INTERVAL ≤ interval → interval ≤ MAX_INTERVAL →
        handleSetupVault owner owner (some interval) = true) ∧
      (∀ (s : EngineState) (now : Int), findVault s owner = none →
        ¬owner.isEmpty → MIN_INTERVAL ≤ interval → interval ≤ MAX_INTERVAL →
        setupVault s owner owner interval now =
          .ok ⟨(owner, ⟨owner, owner, now, interval, 0⟩) :: s.vaults,
               s.totalVaults + 1⟩) ∧
      (∀ (s : EngineState) (v : Vault), findVault s owner = some v →
        ¬(v.owner).isEmpty →
        updateHeir s v.owner owner v.owner =
          .ok (setVault s owner { v with heir := v.owner })) := by
  intro owner interval
  refine ⟨?_, ?_, ?_⟩
  · intro hne hlo hhi
    unfold handleSetupVault uiIntervalAccepts uiIntervalRejects
    simp [hne]
    constructor <;> omega
  · intro s now hv hne hlo hhi
    unfold setupVault
    rw [if_neg (by omega), if_neg (by simpa using hne), hv]
  · intro s v hv hne
    unfold updateHeir
    rw [hv]
    simp [hne]

/-- Witness for the amended C3: a concrete setup with heir = owner is
accepted end to end. -/
theorem C3_heir_not_distinct_witness :
    handleSetupVault "SAME" "SAME" (some 31536000) = true ∧
    setupVault ⟨[], 0⟩ "SAME" "SAME" 31536000 9 =
      .ok ⟨[("SAME", ⟨"SAME", "SAME", 9, 31536000, 0⟩)], 1⟩ :=
  ⟨(C3_heir_not_distinct "SAME" 31536000).1 (by decide) (by decide) (by decide),
   (C3_heir_not_distinct "SAME" 31536000).2.1 ⟨[], 0⟩ 9 (by decide) (by decide)
     (by decide) (by decide)⟩

/-- Claim C4: every mutating engine operation called against a stored vault
by an authenticated identity other than the stored owner (for claimFunds,
other than the stored heir) fails with Unauthorized — and, the result being
a typed error rather than a new state, the vault store and totalVaults are
left exactly as they were; setupVault only ever writes the record keyed by
the authenticated caller, leaving every other owner's record unchanged; and
the UI submits the authenticated wallet address as the sender of a claim,
never the typed-in owner field. -/
theorem C4_authorization_boundary :
    ∀ (s : EngineState) (caller o : String) (v : Vault),
      findVault s o = some v →
      (caller ≠ v.owner →
        (∀ a, depositFunds s caller o a = .error .Unauthorized) ∧
        (∀ a, withdrawFunds s caller o a = .error .Unauthorized) ∧
        (∀ h, updateHeir s caller o h = .error .Unauthorized) ∧
        (∀ i, updateHeartbeatInterval s caller o i = .error .Unauthorized) ∧
        (∀ t, heartbeat s caller o t = .error .Unauthorized)) ∧
      (caller ≠ v.heir → ∀ t, claimFunds s caller o t = .error .Unauthorized) ∧
      (∀ heir interval now s', caller ≠ o →
        setupVault s caller heir interval now = .ok s' →
        findVault s' o = findVault s o) ∧
      (∀ activeAddress target req, handleClaimFunds activeAddress target = some req →
        req.1 = activeAddress) := by
  intro s caller o v hv
  refine ⟨?_, ?_, ?_, ?_⟩
  · intro hne
    refine ⟨?_, ?_, ?_, ?_, ?_⟩
    · intro a
      simp [depositFunds, hv, hne]
    · intro a
      simp [withdrawFunds, hv, hne]
    · intro h
      simp [updateHeir, hv, hne]
    · intro i
      simp [updateHeartbeatInterval, hv, hne]
    · intro t
      simp [heartbeat, hv, hne]
  · intro hne t
    unfold claimFunds
    rw [hv]
    simp [hne]
  · intro heir interval now s' hne hok
    unfold setupVault at hok
    by_cases hb : interval < MIN_INTERVAL ∨ interval > MAX_INTERVAL
    · simp [hb] at hok
    · rw [if_neg hb] at hok
      by_cases hh : heir.isEmpty
      · simp [hh] at hok
      · rw [if_neg (by simpa using hh)] at hok
        rcases hc : findVault s caller with _ | w
        · rw [hc] at hok
          simp only [Except.ok.injEq] at hok
          subst hok
          have hco : (caller == o) = false := by
            simpa using hne
          unfold findVault
          simp [List.find?, hco]
        · rw [hc] at hok
          simp at hok
  · intro activeAddress target req hreq
    unfold handleClaimFunds at hreq
    by_cases ht : target.isEmpty
    · simp [ht] at hreq
    · rw [if_neg (by simpa using ht)] at hreq
      simp only [Option.some.injEq] at hreq
      subst hreq
      rfl

/-- Witness for C4 at a concrete store: a non-owner caller is refused every
owner operation, a non-heir caller is refused the claim, and the concrete
claim request carries the wallet address as sender. -/
theorem C4_authorization_boundary_witness :
    depositFunds ⟨[("O", ⟨"O", "H", 0, 7776000, 5⟩)], 1⟩ "X" "O" 3 =
      .error .Unauthorized ∧
    claimFunds ⟨[("O", ⟨"O", "H", 0, 7776000, 5⟩)], 1⟩ "X" "O" 99999999 =
      .error .Unauthorized ∧
    handleClaimFunds "WALLET" "O" = some ("WALLET", "O") := by
  have h := C4_authorization_boundary ⟨[("O", ⟨"O", "H", 0, 7776000, 5⟩)], 1⟩ "X" "O"
    ⟨"O", "H", 0, 7776000, 5⟩ (by decide)
  exact ⟨(h.1 (by decide)).1 3, h.2.1 (by decide) 99999999, by decide⟩

/-- Claim C5: getVaultInfo on an owner with no vault is the typed failure
VaultNotFound — distinguishable from a success, in particular from a vault
whose balance is zero, which is returned as .ok — and loadVaultInfo maps the
not-found outcome to none (no vault info rendered) while a found vault maps
to exactly its four fields, so a missing record is never rendered as a
zeroed vault. -/
theorem C5_getVaultInfo_not_found :
    ∀ (s : EngineState) (o : String) (prev : Option VaultInfo),
      (findVault s o = none →
        getVaultInfo s o = .error .VaultNotFound ∧
        loadVaultInfo prev (clientGetVaultInfo s o) = none) ∧
      (∀ v, findVault s o = some v →
        getVaultInfo s o = .ok (v.heir, v.lastHeartbeat, v.heartbeatInterval, v.balance) ∧
        loadVaultInfo prev (clientGetVaultInfo s o) =
          some ⟨v.heir, v.lastHeartbeat, v.heartbeatInterval, v.balance⟩) := by
  intro s o prev
  constructor
  · intro hv
    have h1 : getVaultInfo s o = .error .VaultNotFound := by
      simp [getVaultInfo, hv]
    have hm : msgIncludes "Vault does not exist" "Vault does not exist" = true := by
      decide
    exact ⟨h1, by simp [loadVaultInfo, clientGetVaultInfo, h1, hm]⟩
  · intro v hv
    have h1 : getVaultInfo s o =
        .ok (v.heir, v.lastHeartbeat, v.heartbeatInterval, v.balance) := by
      simp [getVaultInfo, hv]
    exact ⟨h1, by simp [loadVaultInfo, clientGetVaultInfo, h1]⟩

/-- Witness for C5 on a concrete store: the missing owner gives VaultNotFound
and clears the rendered info even when something was rendered before; a
zero-balance vault is still returned. -/
theorem C5_getVaultInfo_not_found_witness :
    getVaultInfo ⟨[("O", ⟨"O", "H", 0, 7776000, 0⟩)], 1⟩ "Q" = .error .VaultNotFound ∧
    loadVaultInfo (some ⟨"H", 1, 2, 3⟩)
      (clientGetVaultInfo ⟨[("O", ⟨"O", "H", 0, 7776000, 0⟩)], 1⟩ "Q") = none ∧
    getVaultInfo ⟨[("O", ⟨"O", "H", 0, 7776000, 0⟩)], 1⟩ "O" =
      .ok ("H", 0, 7776000, 0) := by
  have h := C5_getVaultInfo_not_found ⟨[("O", ⟨"O", "H", 0, 7776000, 0⟩)], 1⟩ "Q"
    (some ⟨"H", 1, 2, 3⟩)
  have h2 := C5_getVaultInfo_not_found ⟨[("O", ⟨"O", "H", 0, 7776000, 0⟩)], 1⟩ "O"
    (some ⟨"H", 1, 2, 3⟩)
  exact ⟨(h.1 (by decide)).1, (h.1 (by decide)).2,
    (h2.2 ⟨"O", "H", 0, 7776000, 0⟩ (by decide)).1⟩

/-- Claim C6: updateHeartbeatInterval re-validates the new interval against
the same closed bounds as setup (out-of-bounds fails with InvalidInterval,
checked by the UI with the identical test), and an in-bounds update changes
only heartbeatInterval: the stored record keeps its owner, heir, balance and
lastHeartbeat (not reset), every other owner's record and the counter are
untouched. -/
theorem C6_updateHeartbeatInterval_frame :
    ∀ (s : EngineState) (caller o : String) (i : Int) (v : Vault),
      findVault s o = some v → caller = v.owner →
      ((i < MIN_INTERVAL ∨ i > MAX_INTERVAL) →
        updateHeartbeatInterval s caller o i = .error .InvalidInterval) ∧
      (MIN_INTERVAL ≤ i → i ≤ MAX_INTERVAL →
        updateHeartbeatInterval s caller o i =
          .ok (setVault s o { v with heartbeatInterval := i }) ∧
        findVault (setVault s o { v with heartbeatInterval := i }) o =
          some { v with heartbeatInterval := i } ∧
        (∀ o₂, o₂ ≠ o →
          findVault (setVault s o { v with heartbeatInterval := i }) o₂ =
            findVault s o₂) ∧
        (setVault s o { v with heartbeatInterval := i }).totalVaults =
          s.totalVaults) ∧
      (uiUpdateIntervalAccepts i = true ↔ MIN_INTERVAL ≤ i ∧ i ≤ MAX_INTERVAL) := by
  intro s caller o i v hv hc
  refine ⟨?_, ?_, ?_⟩
  · intro hbad
    simp [updateHeartbeatInterval, hv, hc, hbad]
  · intro hlo hhi
    refine ⟨?_, ?_, ?_, ?_⟩
    · have hb : ¬(i < MIN_INTERVAL ∨ i > MAX_INTERVAL) := by omega
      simp [updateHeartbeatInterval, hv, hc, hb]
    · rw [findVault_setVault]
      simp [hv]
    · intro o₂ hne
      rw [findVault_setVault, if_neg hne]
    · exact setVault_totalVaults s o { v with heartbeatInterval := i }
  · simp [uiUpdateIntervalAccepts]

/-- Witness for C6 on a concrete vault: an out-of-bounds update is refused,
an in-bounds update rewrites only the interval. -/
theorem C6_updateHeartbeatInterval_frame_witness :
    updateHeartbeatInterval ⟨[("O", ⟨"O", "H", 4, 7776000, 5⟩)], 1⟩ "O" "O" 7775999 =
      .error .InvalidInterval ∧
    updateHeartbeatInterval ⟨[("O", ⟨"O", "H", 4, 7776000, 5⟩)], 1⟩ "O" "O" 31536000 =
      .ok ⟨[("O", ⟨"O", "H", 4, 31536000, 5⟩)], 1⟩ := by
  have h := C6_updateHeartbeatInterval_frame ⟨[("O", ⟨"O", "H", 4, 7776000, 5⟩)], 1⟩
    "O" "O" 7775999 ⟨"O", "H", 4, 7776000, 5⟩ (by decide) rfl
  have h2 := C6_updateHeartbeatInterval_frame ⟨[("O", ⟨"O", "H", 4, 7776000, 5⟩)], 1⟩
    "O" "O" 31536000 ⟨"O", "H", 4, 7776000, 5⟩ (by decide) rfl
  refine ⟨h.1 (by decide), ?_⟩
  have := (h2.2.1 (by decide) (by decide)).1
  rw [this]
  decide

theorem claimFunds_ok_iff (s : EngineState) (caller o : String) (now : Int) :
    (∃ r, claimFunds s caller o now = .ok r) ↔
      ∃ v, findVault s o = some v ∧ caller = v.heir ∧
        v.heartbeatInterval < now - v.lastHeartbeat := by
  unfold claimFunds
  rcases hv : findVault s o with _ | v
  · simp
  · by_cases hc : caller = v.heir
    · by_cases ht : now - v.lastHeartbeat ≤ v.heartbeatInterval <;>
        simp [hc, ht] <;> omega
    · simp [hc]

theorem claimFunds_stillActive_iff (s : EngineState) (caller o : String) (now : Int) :
    claimFunds s caller o now = .error .OwnerStillActive ↔
      ∃ v, findVault s o = some v ∧ caller = v.heir ∧
        now - v.lastHeartbeat ≤ v.heartbeatInterval := by
  unfold claimFunds
  rcases hv : findVault s o with _ | v
  · simp
  · by_cases hc : caller = v.heir
    · by_cases ht : now - v.lastHeartbeat ≤ v.heartbeatInterval <;>
        simp [hc, ht] <;> omega
    · simp [hc]

/-- Claim C7: the deposit and withdraw handlers submit no call — so no value
transfer is attempted and no state can change — for an empty amount field,
for any parsed amount ≤ 0, and for a non-numeric amount (the guard lets NaN
through but the BigInt conversion throws before a call is built); the engine
withdraw additionally requires amount ≤ balance and fails with
InsufficientBalance when the balance is exceeded. -/
theorem C7_amount_validation :
    (handleDepositFunds .empty = none ∧ handleWithdrawFunds .empty = none ∧
     handleDepositFunds .nonNumeric = none ∧ handleWithdrawFunds .nonNumeric = none) ∧
    (∀ q : ℚ, q ≤ 0 →
      handleDepositFunds (.numeral q) = none ∧
      handleWithdrawFunds (.numeral q) = none) ∧
    (∀ (s : EngineState) (caller o : String) (v : Vault) (a : Int),
      findVault s o = some v → caller = v.owner → v.balance < a →
      withdrawFunds s caller o a = .error .InsufficientBalance) := by
  refine ⟨⟨rfl, rfl, rfl, rfl⟩, ?_, ?_⟩
  · intro q hq
    have hg : uiAmountGuardPasses (.numeral q) = false := by
      simp [uiAmountGuardPasses, jsLeZero, hq]
    exact ⟨by simp [handleDepositFunds, hg], by simp [handleWithdrawFunds, hg]⟩
  · intro s caller o v a hv hc hb
    have hba : a ≤ 0 ∨ v.balance < a := Or.inr hb
    simp [withdrawFunds, hv, hc, hba]

/-- Claim C8: the two UI unit conversions are the same function of the
entered value (deposit through algo(), withdraw through × 1,000,000 and
Math.round), and on the engine a deposit of a followed by a withdrawal of
the same a restores the pre-deposit record exactly (same balance, same
everything, counter unchanged). -/
theorem C8_deposit_withdraw_roundtrip :
    (∀ n : JsNum, algoToMicro n = jsRoundMicro n) ∧
    (∀ (s : EngineState) (c : String) (v : Vault) (a : Int),
      findVault s c = some v → c = v.owner → 0 < a → 0 ≤ v.balance →
      ∃ s₁ s₂, depositFunds s c c a = .ok s₁ ∧
        withdrawFunds s₁ c c a = .ok s₂ ∧
        findVault s₂ c = some v ∧
        s₂.totalVaults = s.totalVaults) := by
  constructor
  · intro n
    cases n <;> rfl
  · intro s c v a hv hc ha hb
    subst hc
    have hna : ¬ a ≤ 0 := by omega
    have h1 : depositFunds s v.owner v.owner a =
        .ok (setVault s v.owner { v with balance := v.balance + a }) := by
      simp [depositFunds, hv, hna]
    have hv1 : findVault (setVault s v.owner { v with balance := v.balance + a }) v.owner =
        some { v with balance := v.balance + a } := by
      rw [findVault_setVault]
      simp [hv]
    have hnb : ¬(a ≤ 0 ∨ ({ v with balance := v.balance + a } : Vault).balance < a) := by
      simp
      omega
    have h2 : withdrawFunds (setVault s v.owner { v with balance := v.balance + a })
        v.owner v.owner a =
        .ok (setVault (setVault s v.owner { v with balance := v.balance + a }) v.owner
          { v with balance := v.balance + a - a }) := by
      simp [withdrawFunds, hv1, hnb]
      omega
    have hrec : ({ v with balance := v.balance + a - a } : Vault) = v := by
      have hba : v.balance + a - a = v.balance := by ring
      rw [hba]
    refine ⟨_, _, h1, h2, ?_, rfl⟩
    rw [findVault_setVault]
    simp [hv1, hrec]

/-- Witness for C8 on a concrete vault: depositing then withdrawing 7
microALGO returns the store to the original record. -/
theorem C8_deposit_withdraw_roundtrip_witness :
    ∃ s₁ s₂, depositFunds ⟨[("O", ⟨"O", "H", 0, 7776000, 5⟩)], 1⟩ "O" "O" 7 = .ok s₁ ∧
      withdrawFunds s₁ "O" "O" 7 = .ok s₂ ∧
      findVault s₂ "O" = some ⟨"O", "H", 0, 7776000, 5⟩ ∧
      s₂.totalVaults = 1 :=
  C8_deposit_withdraw_roundtrip.2 ⟨[("O", ⟨"O", "H", 0, 7776000, 5⟩)], 1⟩ "O"
    ⟨"O", "H", 0, 7776000, 5⟩ 7 (by decide) rfl (by decide) (by decide)

/-- Claim C9: with a fixed store (no heartbeat in between), claim
eligibility is monotonic in time: a claim that fails with OwnerStillActive
at T either still fails with OwnerStillActive or succeeds at any T2 ≥ T, and
a claim that would succeed at T still succeeds at any T2 ≥ T — never a flip
back to ineligible. -/
theorem C9_claim_eligibility_monotonic :
    ∀ (s : EngineState) (caller o : String) (T T2 : Int), T ≤ T2 →
      (claimFunds s caller o T = .error .OwnerStillActive →
        claimFunds s caller o T2 = .error .OwnerStillActive ∨
        ∃ r, claimFunds s caller o T2 = .ok r) ∧
      ((∃ r, claimFunds s caller o T = .ok r) → ∃ r, claimFunds s caller o T2 = .ok r) := by
  intro s caller o T T2 hT
  constructor
  · intro h1
    obtain ⟨v, hv, hc, ht⟩ := (claimFunds_stillActive_iff s caller o T).mp h1
    by_cases h2 : T2 - v.lastHeartbeat ≤ v.heartbeatInterval
    · exact Or.inl ((claimFunds_stillActive_iff s caller o T2).mpr ⟨v, hv, hc, h2⟩)
    · exact Or.inr ((claimFunds_ok_iff s caller o T2).mpr ⟨v, hv, hc, by omega⟩)
  · intro h1
    obtain ⟨v, hv, hc, ht⟩ := (claimFunds_ok_iff s caller o T).mp h1
    exact (claimFunds_ok_iff s caller o T2).mpr ⟨v, hv, hc, by omega⟩

/-- Witness for C9 at a concrete vault: still active at the boundary time, a
day later the same claim request succeeds. -/
theorem C9_claim_eligibility_monotonic_witness :
    claimFunds ⟨[("O", ⟨"O", "H", 0, 7776000, 5⟩)], 1⟩ "H" "O" 7776000 =
      .error .OwnerStillActive ∨
    ∃ r, claimFunds ⟨[("O", ⟨"O", "H", 0, 7776000, 5⟩)], 1⟩ "H" "O" 7776000 = .ok r :=
  (C9_claim_eligibility_monotonic ⟨[("O", ⟨"O", "H", 0, 7776000, 5⟩)], 1⟩ "H" "O"
    7776000 7776000 (by decide)).1 (by decide)

/-- Counterexample to C10 as stated: for the user-entered amount 1 the TSX
handler submits 1,000,000 (microALGO for 1 ALGO) while the part_000 handler
submits 1 (the input passed as microALGO) — not the same amount argument. -/
theorem C10_counterexample :
    handleWithdrawFunds (.numeral 1) = some 1000000 ∧
    handleWithdrawFundsPart000 (.numeral 1) = some 1 ∧
    handleWithdrawFunds (.numeral 1) ≠ handleWithdrawFundsPart000 (.numeral 1) := by
  have h1 : ((1 : ℚ) * 1000000).num = 1000000 := by norm_num
  have h2 : ((1 : ℚ) * 1000000).den = 1 := by norm_num
  have ht : handleWithdrawFunds (.numeral 1) = some 1000000 := by
    simp [handleWithdrawFunds, uiAmountGuardPasses, jsLeZero, jsNumber, jsRoundMicro,
      jsRound, h1, h2]
  have hp : handleWithdrawFundsPart000 (.numeral 1) = some 1 := by
    simp [handleWithdrawFundsPart000, uiAmountGuardPasses, jsLeZero, jsNumber,
      jsBigIntOfInput]
  refine ⟨ht, hp, ?_⟩
  rw [ht, hp]
  decide

/-- Claim C10 amended: the two withdraw handlers are not equivalent — they
are related by the unit factor instead: for every positive integer input n
both issue a call, the TSX handler submits 1,000,000·n (the input read as
ALGO and converted) while the part_000 handler submits n (the input read as
microALGO), and the two submitted amounts differ. -/
theorem C10_withdraw_unit_factor :
    ∀ n : Int, 0 < n →
      handleWithdrawFunds (.numeral (n : ℚ)) = some (1000000 * n) ∧
      handleWithdrawFundsPart000 (.numeral (n : ℚ)) = some n ∧
      (1000000 * n : Int) ≠ n := by
  intro n hn
  have hq : ¬((n : ℚ) ≤ 0) := by
    rw [not_le]
    exact_mod_cast hn
  have hcast : (n : ℚ) * 1000000 = ((n * 1000000 : ℤ) : ℚ) := by
    push_cast
    ring
  have h1 : ((n : ℚ) * 1000000).num = n * 1000000 := by
    rw [hcast, Rat.intCast_num]
  have h2 : ((n : ℚ) * 1000000).den = 1 := by
    rw [hcast, Rat.intCast_den]
  refine ⟨?_, ?_, by omega⟩
  · have hdiv : (2 * (n * 1000000) + 1) / 2 = 1000000 * n := by
      omega
    simp [handleWithdrawFunds, uiAmountGuardPasses, jsLeZero, jsNumber, jsRoundMicro,
      jsRound, h1, h2, hq, hdiv]
  · simp [handleWithdrawFundsPart000, uiAmountGuardPasses, jsLeZero, jsNumber,
      jsBigIntOfInput, hq, Rat.intCast_den, Rat.intCast_num]

/-- Witness for the amended C10 at input 2: the TSX handler submits
2,000,000, the part_000 handler submits 2. -/
theorem C10_withdraw_unit_factor_witness :
    handleWithdrawFunds (.numeral ((2 : Int) : ℚ)) = some (1000000 * 2) ∧
    handleWithdrawFundsPart000 (.numeral ((2 : Int) : ℚ)) = some 2 ∧
    (1000000 * 2 : Int) ≠ 2 :=
  C10_withdraw_unit_factor 2 (by decide)

end TrustVault
